import Mathlib

/-!
Verification development for the dtchess repository: a shallow embedding of
its config loader, model factory, training loop, data-pipeline call sites and
utility helpers, with theorems settling the specification claims.

Conventions of the embedding:
* Python machine-level values are modelled exactly where the claims need them:
  Python `int` as `Int`, Python `float` as exact rationals `ℚ` (the config
  values of interest are short decimal literals), Python strings as `String`
  or `List Char` (the latter where proofs need structural induction).
* Fallible Python code is embedded as `Except PyErr _`; `PyErr` lists the
  runtime error classes that the embedded code can raise.
* A config file is embedded as its list of lines (without the trailing
  newline of each line; the source strips `"\n"` from values, which the
  embedding keeps, so the two views agree).
-/

namespace DTChess

/-- Python runtime error classes raised by the embedded code.
`valueError` covers `int()`/`float()` parse failures, tuple-unpacking
failures and the explicit `raise ValueError` in `extract_tag`;
`attributeError` is Python's error for reading a missing attribute;
`typeError` is raised by `+` on incompatible operands; `parseError` is
`xml.etree.ElementTree.ParseError`. -/
inductive PyErr
  | valueError
  | attributeError
  | typeError
  | parseError
deriving DecidableEq, Repr

/-! ## Character-list helpers mirroring the Python string methods used
by `dtchess/utils/config.py`. -/

/-- Python `str.split(sep)` for a one-character separator: splits at every
occurrence of `c`, keeping empty pieces, so the result always has
`count + 1` pieces. -/
def splitCh (c : Char) : List Char → List (List Char)
  | [] => [[]]
  | a :: rest =>
    match splitCh c rest with
    | [] => [[]]
    | g :: gs => if a = c then [] :: g :: gs else (a :: g) :: gs

/-- Drop the trailing characters satisfying `p` (helper for `strip`). -/
def dropEndWhile (p : Char → Bool) (cs : List Char) : List Char :=
  (cs.reverse.dropWhile p).reverse

/-- Python `str.strip(chars)` generalised over a character predicate:
removes the characters satisfying `p` from both ends. -/
def stripBy (p : Char → Bool) (cs : List Char) : List Char :=
  dropEndWhile p (cs.dropWhile p)

/-- Python `str.strip()` (no arguments): strips whitespace from both ends. -/
def stripWs (cs : List Char) : List Char :=
  stripBy Char.isWhitespace cs

/-- Python `str.strip("\n")`: strips newline characters from both ends. -/
def stripNewlines (cs : List Char) : List Char :=
  stripBy (fun c => c = '\n') cs

/-- Python `str.split(", ")` as used for the betas value: splits at every
(non-overlapping, leftmost-first) occurrence of the two-character
separator comma-space. -/
def splitCommaSpace : List Char → List (List Char)
  | [] => [[]]
  | ',' :: ' ' :: rest => [] :: splitCommaSpace rest
  | a :: rest =>
    match splitCommaSpace rest with
    | [] => [[]]
    | g :: gs => (a :: g) :: gs

/-- Value of a list of decimal digit characters. -/
def digitsToNat (ds : List Char) : Nat :=
  ds.foldl (fun acc d => acc * 10 + (d.toNat - ('0').toNat)) 0

/-- Strip one leading sign character, returning whether it was a minus. -/
def splitSign : List Char → (Bool × List Char)
  | '-' :: r => (true, r)
  | '+' :: r => (false, r)
  | r => (false, r)

/-- Python `int(s)` on the decimal forms the repository's config files use:
optional surrounding whitespace, optional sign, a nonempty digit run.
Returns `none` where Python raises `ValueError`. -/
def pyInt (cs : List Char) : Option Int :=
  let s := stripWs cs
  let (neg, ds) := splitSign s
  if ds ≠ [] ∧ ds.all Char.isDigit then
    some (if neg then -(digitsToNat ds : Int) else (digitsToNat ds : Int))
  else none

/-- Mantissa of a Python float literal: digit run with an optional decimal
point (`"1"`, `"1."`, `".5"`, `"0.95"`). Returns the digits' value and the
number of fractional digits. -/
def parseMant (cs : List Char) : Option (Nat × Nat) :=
  match splitCh '.' cs with
  | [ip] => if ip ≠ [] ∧ ip.all Char.isDigit then some (digitsToNat ip, 0) else none
  | [ip, fp] =>
    if (ip ++ fp) ≠ [] ∧ (ip ++ fp).all Char.isDigit then
      some (digitsToNat (ip ++ fp), fp.length)
    else none
  | _ => none

/-- Exponent part of a Python float literal: optional sign, digit run. -/
def parseExp (cs : List Char) : Option Int :=
  match cs with
  | [] => none
  | _ =>
    let (neg, ds) := splitSign cs
    if ds ≠ [] ∧ ds.all Char.isDigit then
      some (if neg then -(digitsToNat ds : Int) else (digitsToNat ds : Int))
    else none

/-- Exact rational value `mv * 10 ^ net`. -/
def decScale (mv : Nat) (net : Int) : ℚ :=
  if 0 ≤ net then (mv : ℚ) * (10 : ℚ) ^ net.toNat
  else (mv : ℚ) / (10 : ℚ) ^ net.natAbs

/-- Python `float(s)` on finite decimal/scientific literals, as exact
rationals: optional whitespace and sign, mantissa, optional `e`/`E`
exponent. Returns `none` where Python raises `ValueError`. -/
def pyFloat (cs : List Char) : Option ℚ :=
  let s := stripWs cs
  let (neg, rest) := splitSign s
  let lowered := rest.map (fun c => if c = 'E' then 'e' else c)
  match splitCh 'e' lowered with
  | [m] =>
    match parseMant m with
    | none => none
    | some (mv, fl) =>
      some (if neg then -(decScale mv (-(fl : Int))) else decScale mv (-(fl : Int)))
  | [m, ex] =>
    match parseMant m, parseExp ex with
    | some (mv, fl), some e =>
      some (if neg then -(decScale mv (e - (fl : Int))) else decScale mv (e - (fl : Int)))
    | _, _ => none
  | _ => none

/-! ## dtchess/utils/config.py -/

/-- The dataclass `TrainingConfig` of `dtchess/utils/config.py`, with its
field defaults. Its fields are exactly `max_epochs`, `batch_size`,
`learning_rate`, `betas`, `weight_decay`, `ckpt_path`, `num_workers` —
nothing else (in particular no `num_epochs`, `log_every_n`,
`checkpoint_every_n` or `dataset`). -/
structure TrainingConfig where
  max_epochs : Int := 10
  batch_size : Int := 64
  learning_rate : ℚ := 1 / 10000
  betas : ℚ × ℚ := (9 / 10, 19 / 20)
  weight_decay : ℚ := 1 / 10
  ckpt_path : Option (List Char) := none
  num_workers : Int := 0
deriving DecidableEq, Repr

/-- The `kwargs` dict built by `config_from_file`: a partial record of the
keys the parser recognises (`ckpt_path` is never parsed by the source, so it
has no slot here). -/
structure Kwargs where
  max_epochs : Option Int := none
  batch_size : Option Int := none
  learning_rate : Option ℚ := none
  betas : Option (ℚ × ℚ) := none
  weight_decay : Option ℚ := none
  num_workers : Option Int := none
deriving DecidableEq, Repr

/-- The `if`/`elif` chain of `config_from_file` (config.py lines 20-28):
given the stripped key and value of one line, update the kwargs.
`int()`/`float()` failures and the betas unpacking failure raise
`ValueError`; an unrecognised key is silently ignored. -/
def applyKV (kw : Kwargs) (k v : List Char) : Except PyErr Kwargs :=
  if k = ("max_epochs").toList ∨ k = ("batch_size").toList ∨ k = ("num_workers").toList then
    match pyInt v with
    | none => .error .valueError
    | some n =>
      if k = ("max_epochs").toList then .ok { kw with max_epochs := some n }
      else if k = ("batch_size").toList then .ok { kw with batch_size := some n }
      else .ok { kw with num_workers := some n }
  else if k = ("learning_rate").toList ∨ k = ("weight_decay").toList then
    match pyFloat v with
    | none => .error .valueError
    | some q =>
      if k = ("learning_rate").toList then .ok { kw with learning_rate := some q }
      else .ok { kw with weight_decay := some q }
  else if k = ("betas").toList then
    match splitCommaSpace v with
    | [b1, b2] =>
      match pyFloat ((stripWs b1).drop 1), pyFloat ((stripWs b2).dropLast) with
      | some q1, some q2 => .ok { kw with betas := some (q1, q2) }
      | _, _ => .error .valueError
    | _ => .error .valueError
  else .ok kw

/-- One line of the loop of `config_from_file` (config.py lines 16-28):
`k, v = line.split(":")` (a `ValueError` unless the split yields exactly two
pieces), `k = k.strip()`, `v = v.strip("\n").strip()`, then the key chain. -/
def processLine (kw : Kwargs) (line : List Char) : Except PyErr Kwargs :=
  match splitCh ':' line with
  | [k, v] => applyKV kw (stripWs k) (stripWs (stripNewlines v))
  | _ => .error .valueError

/-- The `for line in f` loop of `config_from_file`, threading the kwargs. -/
def configLines (kw : Kwargs) : List (List Char) → Except PyErr Kwargs
  | [] => .ok kw
  | l :: rest =>
    match processLine kw l with
    | .error e => .error e
    | .ok kw2 => configLines kw2 rest

/-- `TrainingConfig(**kwargs)`: fields absent from the kwargs take the
dataclass defaults; `ckpt_path` is never in the kwargs. -/
def buildConfig (kw : Kwargs) : TrainingConfig :=
  { max_epochs := kw.max_epochs.getD 10,
    batch_size := kw.batch_size.getD 64,
    learning_rate := kw.learning_rate.getD (1 / 10000),
    betas := kw.betas.getD (9 / 10, 19 / 20),
    weight_decay := kw.weight_decay.getD (1 / 10),
    ckpt_path := none,
    num_workers := kw.num_workers.getD 0 }

/-- `config_from_file` of `dtchess/utils/config.py`, on the file's lines. -/
def config_from_file (lines : List String) : Except PyErr TrainingConfig :=
  match configLines {} (lines.map String.toList) with
  | .error e => .error e
  | .ok kw => .ok (buildConfig kw)

/-- The stripped key of a config line, when the line splits into exactly
two pieces at a colon (the only shape `config_from_file` accepts). -/
def lineKeyL (l : List Char) : Option (List Char) :=
  match splitCh ':' l with
  | [k, _] => some (stripWs k)
  | _ => none

/-- `lineKeyL` on a line given as a `String`. -/
def lineKey (l : String) : Option (List Char) :=
  lineKeyL l.toList

/-! ## dtchess/models/gpt.py — the model factory

The external `transformers`/`torch` objects are embedded at the level of
structure the source touches. Facts of the external library used by the
embedding (documented transformers/torch behaviour):
* `torch.nn.Embedding` is a table with `num_embeddings` rows of width
  `embedding_dim`.
* `GPT2Model` (the transformer trunk) holds the token-embedding table
  `wte` and the position-embedding table `wpe`.
* `GPT2LMHeadModel` holds the trunk as its submodule `transformer` (and a
  tied `lm_head`); its input token-embedding table is `transformer.wte`.
  It declares no attribute called `wte`; reading an undeclared attribute of
  a module raises `AttributeError`, while assigning one creates a new,
  otherwise-unused attribute (modelled by `dynamicWte`).
* `GPT2Tokenizer.vocab_size` is the size of the base vocabulary, excluding
  tokens added later; `add_special_tokens({"pad_token": ...})` records the
  pad token and, when new, appends it to the added-token list, so
  `len(tokenizer)` (base size + added tokens) grows by one. -/

/-- A `torch.nn.Embedding` table. -/
structure Embedding where
  num_embeddings : Nat
  embedding_dim : Nat
deriving DecidableEq, Repr

/-- The GPT-2 trunk: token- and position-embedding tables. -/
structure GPT2Model where
  wte : Embedding
  wpe : Embedding
deriving DecidableEq, Repr

/-- `transformers.GPT2LMHeadModel`: the trunk plus any dynamically assigned
`wte` attribute (absent on a freshly loaded model). -/
structure GPT2LMHeadModel where
  transformer : GPT2Model
  dynamicWte : Option Embedding := none
deriving DecidableEq, Repr

/-- `transformers.GPT2Tokenizer`: base vocabulary size, added tokens, and
the registered pad token. -/
structure GPT2Tokenizer where
  vocab_size : Nat
  added_tokens : List String := []
  pad_token : Option String := none
deriving DecidableEq, Repr

/-- `len(tokenizer)`: base vocabulary plus added tokens. -/
def tokenizerLen (tok : GPT2Tokenizer) : Nat :=
  tok.vocab_size + tok.added_tokens.length

/-- `tokeniser.add_special_tokens({"pad_token": padTok})`. -/
def add_special_tokens_pad (tok : GPT2Tokenizer) (padTok : String) : GPT2Tokenizer :=
  if padTok ∈ tok.added_tokens then { tok with pad_token := some padTok }
  else { tok with added_tokens := tok.added_tokens ++ [padTok], pad_token := some padTok }

/-- The Python attribute read `model.wte` on a `GPT2LMHeadModel`: only a
dynamically assigned `wte` can be found; otherwise `AttributeError`. -/
def getWteAttr (m : GPT2LMHeadModel) : Except PyErr Embedding :=
  match m.dynamicWte with
  | some e => .ok e
  | none => .error .attributeError

/-- `create_model` of `dtchess/models/gpt.py`, parameterised by what
`from_pretrained` returns for the given identifier: registers the `[PAD]`
token, then evaluates `nn.Embedding(tokeniser.vocab_size + 1,
model.wte.embedding_dim)` and assigns it to `model.wte`. The read
`model.wte` happens before the assignment. -/
def create_model (pretrainedTok : GPT2Tokenizer) (pretrainedModel : GPT2LMHeadModel) :
    Except PyErr (GPT2Tokenizer × GPT2LMHeadModel) :=
  let tokeniser := add_special_tokens_pad pretrainedTok ("[PAD]")
  match getWteAttr pretrainedModel with
  | .error e => .error e
  | .ok old =>
    let newWte : Embedding :=
      { num_embeddings := tokeniser.vocab_size + 1, embedding_dim := old.embedding_dim }
    .ok (tokeniser, { pretrainedModel with dynamicWte := some newWte })

/-! ## dtchess/train.py — the training loop -/

/-- Observable side effects of one run of `train`: the tracking-session
calls, the per-batch compute sequence, and the filesystem/artifact actions.
`fsDelete` is never emitted by the loop; it is here so that "never deletes a
checkpoint" is expressible. -/
inductive Effect
  | initRun
  | watch
  | forward
  | zeroGrad
  | backward
  | optimStep
  | fsWrite (path : String)
  | fsDelete (path : String)
  | logArtifact (nm : String)
deriving DecidableEq, Repr

/-- A value read off a `TrainingConfig` attribute. -/
inductive ConfigVal
  | intV (n : Int)
  | ratV (q : ℚ)
  | pairV (p : ℚ × ℚ)
  | strV (s : Option (List Char))
deriving DecidableEq, Repr

/-- Python `getattr` on a `TrainingConfig` instance: the dataclass's seven
fields are found; any other name raises `AttributeError`. -/
def configGetattr (cfg : TrainingConfig) (nm : String) : Except PyErr ConfigVal :=
  if nm = ("max_epochs") then .ok (.intV cfg.max_epochs)
  else if nm = ("batch_size") then .ok (.intV cfg.batch_size)
  else if nm = ("learning_rate") then .ok (.ratV cfg.learning_rate)
  else if nm = ("betas") then .ok (.pairV cfg.betas)
  else if nm = ("weight_decay") then .ok (.ratV cfg.weight_decay)
  else if nm = ("ckpt_path") then .ok (.strV cfg.ckpt_path)
  else if nm = ("num_workers") then .ok (.intV cfg.num_workers)
  else .error .attributeError

/-- The checkpoint path of train.py line 41:
`f"{config.ckpt_path}/gpt2-{wandb.run.id}.pt"` — run id only, no step. -/
def ckptFilePath (ckptPath runId : String) : String :=
  ckptPath ++ ("/gpt2-") ++ runId ++ (".pt")

/-- Effects of one batch iteration of the loop body (train.py lines 30-45):
forward pass, `zero_grad`, `backward`, `step`, then — when `i > 0` and
`i % checkpoint_every_n == 0` — a checkpoint write and artifact upload.
(When `checkpoint_every_n = 0` Python would raise `ZeroDivisionError` at
`i = 1`; `Nat.mod _ 0` makes the condition false instead. The claims only
concern nonzero intervals.) -/
def batchEffects (checkpoint_every_n : Nat) (ckptPath runId : String) (i : Nat) : List Effect :=
  [Effect.forward, Effect.zeroGrad, Effect.backward, Effect.optimStep] ++
    (if 0 < i ∧ i % checkpoint_every_n = 0 then
      [Effect.fsWrite (ckptFilePath ckptPath runId),
       Effect.logArtifact (("gpt2-") ++ runId)]
    else [])

/-- Effects of one epoch: the enumerated dataloader gives batch indices
`0, …, nBatches - 1`. -/
def epochEffects (checkpoint_every_n : Nat) (ckptPath runId : String) (nBatches : Nat) :
    List Effect :=
  (List.range nBatches).flatMap (batchEffects checkpoint_every_n ckptPath runId)

/-- The effect trace of train.py's body were its config attributes
available: `wandb.init`, `wandb.watch`, then `num_epochs` epochs over the
batches. This is the loop that lines 28-45 express, factored over the
attribute values (`num_epochs`, `checkpoint_every_n`, `ckpt_path`) that the
body reads off `config`. -/
def trainLoopEffects (num_epochs checkpoint_every_n : Nat) (ckptPath runId : String)
    (nBatches : Nat) : List Effect :=
  [Effect.initRun, Effect.watch] ++
    (List.range num_epochs).flatMap (fun _ => epochEffects checkpoint_every_n ckptPath runId nBatches)

/-- `train` of `dtchess/train.py` run against an actual `TrainingConfig`:
`wandb.init` succeeds (the asdict call uses only real fields), then
`wandb.watch(model, log_freq=config.log_every_n)` reads the attribute
`log_every_n`, and the loop head reads `num_epochs`, the loop body
`checkpoint_every_n` and `ckpt_path` (reads hoisted here; unreachable,
since the `log_every_n` read already fails). Returns the effect trace
together with the outcome. -/
def train (cfg : TrainingConfig) (nBatches : Nat) (runId : String) :
    List Effect × Except PyErr Unit :=
  match configGetattr cfg ("log_every_n") with
  | .error e => ([Effect.initRun], .error e)
  | .ok _ =>
    match configGetattr cfg ("num_epochs"), configGetattr cfg ("checkpoint_every_n"),
        configGetattr cfg ("ckpt_path") with
    | .ok (.intV ne), .ok (.intV ck), .ok (.strV (some cp)) =>
      (trainLoopEffects ne.toNat ck.toNat (String.mk cp) runId nBatches, .ok ())
    | _, _, _ => ([Effect.initRun, Effect.watch], .error .attributeError)

/-- The path of an `fsWrite` effect, if any. -/
def writePathOf : Effect → Option String
  | .fsWrite p => some p
  | _ => none

/-! ## dtchess/utils/utils.py — count_parameters -/

/-- A Python value reachable in the `sum(p.numel for ...)` expression:
an integer, or the bound-method object that the attribute read `p.numel`
(without call parentheses) evaluates to. -/
inductive PyVal
  | intV (n : Int)
  | boundMethod
deriving DecidableEq, Repr

/-- Python `+` on such values: defined on two integers, `TypeError`
otherwise. -/
def pyAdd (a b : PyVal) : Except PyErr PyVal :=
  match a, b with
  | .intV x, .intV y => .ok (.intV (x + y))
  | _, _ => .error .typeError

/-- A `torch.nn.Parameter`: its element count and `requires_grad` flag. -/
structure Parameter where
  numel_count : Nat
  requires_grad : Bool
deriving DecidableEq, Repr

/-- The attribute read `p.numel` (no call parentheses): the bound method
object, not the integer `p.numel()`. -/
def numelAttr (_p : Parameter) : PyVal := .boundMethod

/-- A `torch.nn.Module` as `count_parameters` sees it: its parameter list. -/
structure TorchModule where
  params : List Parameter
deriving DecidableEq, Repr

/-- Python `sum(...)`: left fold of `+` starting from the integer 0. -/
def pySum (vs : List PyVal) : Except PyErr PyVal :=
  vs.foldl
    (fun acc v =>
      match acc with
      | .error e => .error e
      | .ok a => pyAdd a v)
    (.ok (.intV 0))

/-- `count_parameters` of `dtchess/utils/utils.py`:
`sum(p.numel for p in model.parameters() if p.requires_grad)`. -/
def count_parameters (model : TorchModule) : Except PyErr PyVal :=
  pySum ((model.params.filter (fun p => p.requires_grad)).map numelAttr)

/-! ## The two tokenisation call sites (utils.py preprocess_data,
train_light.py prep) -/

/-- The keyword arguments of a `tokeniser(text, ...)` call. -/
structure TokenizeCall where
  padding : String
  max_length : Nat
  truncation : Bool
  return_tensors : String
deriving DecidableEq, Repr

/-- The call of `preprocess_data` (utils.py lines 102-107): fixed
`max_length=1024`. -/
def preprocessTokenizeCall : TokenizeCall :=
  { padding := ("max_length"), max_length := 1024, truncation := true,
    return_tensors := ("pt") }

/-- The call of `prep` (train_light.py lines 16-24):
`max_length=model.transformer.wpe.num_embeddings`. -/
def prepTokenizeCall (model : GPT2LMHeadModel) : TokenizeCall :=
  { padding := ("max_length"), max_length := model.transformer.wpe.num_embeddings,
    truncation := true, return_tensors := ("pt") }

/-- A tokenizer call with `padding="max_length"` and `truncation=True`, on
the raw id sequence the tokenizer would produce for the text: truncate to
`max_length` and pad with the pad id up to `max_length` (documented
transformers behaviour for these arguments). -/
def tokenizeToIds (args : TokenizeCall) (padId : Nat) (rawIds : List Nat) : List Nat :=
  rawIds.take args.max_length ++ List.replicate (args.max_length - rawIds.length) padId

/-! ## dtchess/utils/utils.py — extract_tag

`xml.etree.ElementTree` is embedded for the fragment of XML the function
exercises: nested tag elements and text, no attributes or entities. -/

/-- A parsed XML node: a text run or an element with children. -/
inductive XNode
  | textNode (s : List Char)
  | elemNode (nm : List Char) (children : List XNode)

/-- Fuel-driven parser for a sequence of sibling nodes. Returns the nodes
and the unconsumed rest (which starts with a closing tag or is empty);
`none` on malformed input. Fuel `length + 1` suffices since every
recursive call consumes at least one character. -/
def parseNodes : Nat → List Char → Option (List XNode × List Char)
  | 0, _ => none
  | _ + 1, [] => some ([], [])
  | _ + 1, '<' :: '/' :: rest => some ([], '<' :: '/' :: rest)
  | fuel + 1, '<' :: rest =>
    let nm := rest.takeWhile (fun a => a ≠ '>')
    match rest.dropWhile (fun a => a ≠ '>') with
    | '>' :: body =>
      match parseNodes fuel body with
      | none => none
      | some (children, rest3) =>
        match rest3 with
        | '<' :: '/' :: rest4 =>
          if nm.isPrefixOf rest4 then
            match rest4.drop nm.length with
            | '>' :: rest5 =>
              match parseNodes fuel rest5 with
              | none => none
              | some (sibs, rest6) => some (XNode.elemNode nm children :: sibs, rest6)
            | _ => none
          else none
        | _ => none
    | _ => none
  | fuel + 1, c :: cs =>
    let txt := (c :: cs).takeWhile (fun a => a ≠ '<')
    match parseNodes fuel ((c :: cs).dropWhile (fun a => a ≠ '<')) with
    | none => none
    | some (sibs, rest2) => some (XNode.textNode txt :: sibs, rest2)

/-- `ET.fromstring`: the whole input must parse as exactly one element. -/
def fromstring (cs : List Char) : Option XNode :=
  match parseNodes (cs.length + 1) cs with
  | some ([XNode.elemNode nm children], []) => some (XNode.elemNode nm children)
  | _ => none

/-- `element.find(tag)`: the first direct child element with the tag. -/
def findChild (tag : List Char) : List XNode → Option XNode
  | [] => none
  | XNode.elemNode nm ch :: rest =>
    if nm = tag then some (XNode.elemNode nm ch) else findChild tag rest
  | _ :: rest => findChild tag rest

/-- `element.text`: the text before the first child element, `none` when the
content starts with a child element or is empty. -/
def elemText : XNode → Option (List Char)
  | XNode.elemNode _ (XNode.textNode s :: _) => some s
  | _ => none

/-- Python `tag_name in input_string`: substring containment. -/
def isSubstrOf (needle hay : List Char) : Bool :=
  (List.range (hay.length + 1)).any (fun i => needle.isPrefixOf (hay.drop i))

/-- The body of `extract_tag` past the substring guard: wrap in a synthetic
root, parse, find the named child, take its text. -/
def extractTagBody (s t : List Char) : Except PyErr (Option String) :=
  match fromstring ((("<root>").toList) ++ s ++ (("</root>").toList)) with
  | none => .error .parseError
  | some (XNode.textNode _) => .error .parseError
  | some (XNode.elemNode _ children) =>
    match findChild t children with
    | none => .error .attributeError
    | some e =>
      match elemText e with
      | none => .ok none
      | some txt => .ok (some (String.mk txt))

/-- `extract_tag` of `dtchess/utils/utils.py`: `ValueError` when `tag_name`
is not a substring of the input, else parse the root-wrapped input and
return `root.find(tag_name).text` (an `AttributeError` when `find` returns
`None`, since `None` has no `.text`). -/
def extract_tag (input_string tag_name : String) : Except PyErr (Option String) :=
  if isSubstrOf tag_name.toList input_string.toList = false then .error .valueError
  else extractTagBody input_string.toList tag_name.toList

/-! ## Helper lemmas -/

/-- A left fold of the error-propagating sum step never recovers from an
error. -/
theorem pySum_foldl_error (l : List PyVal) (e : PyErr) :
    l.foldl
      (fun (acc : Except PyErr PyVal) v =>
        match acc with
        | .error e2 => .error e2
        | .ok a => pyAdd a v)
      (.error e) = .error e := by
  induction l with
  | nil => rfl
  | cons v rest ih => simpa using ih

/-- `str.split(c)` yields one more piece than there are occurrences of the
separator. -/
theorem splitCh_length (c : Char) (cs : List Char) :
    (splitCh c cs).length = cs.count c + 1 := by
  induction cs with
  | nil => rfl
  | cons a rest ih =>
    show (match splitCh c rest with
          | [] => [[]]
          | g :: gs => if a = c then [] :: g :: gs else (a :: g) :: gs).length
        = (a :: rest).count c + 1
    cases hs : splitCh c rest with
    | nil => rw [hs] at ih; simp at ih
    | cons g gs =>
      rw [hs] at ih
      show (if a = c then [] :: g :: gs else (a :: g) :: gs).length = (a :: rest).count c + 1
      by_cases hac : a = c
      · rw [if_pos hac]
        subst hac
        simp only [List.count_cons, List.length_cons] at ih ⊢
        simp only [beq_self_eq_true, if_true]
        omega
      · rw [if_neg hac]
        simp only [List.count_cons, List.length_cons] at ih ⊢
        have hb : (a == c) = false := beq_eq_false_iff_ne.mpr hac
        rw [hb]
        simpa using ih

/-- A line without the separator splits into itself alone. -/
theorem splitCh_of_not_mem (c : Char) (cs : List Char) (h : c ∉ cs) :
    splitCh c cs = [cs] := by
  induction cs with
  | nil => rfl
  | cons a rest ih =>
    have ha : ¬ a = c := fun hh => h (hh ▸ List.mem_cons_self a rest)
    have hr : c ∉ rest := fun hh => h (List.mem_cons_of_mem a hh)
    rw [show splitCh c (a :: rest)
          = (match splitCh c rest with
             | [] => [[]]
             | g :: gs => if a = c then [] :: g :: gs else (a :: g) :: gs) from rfl,
        ih hr]
    show (if a = c then [] :: rest :: [] else (a :: rest) :: []) = [a :: rest]
    rw [if_neg ha]

/-- Every error `applyKV` can raise is a `ValueError` (the `int()`,
`float()` and unpacking failures). -/
theorem applyKV_error_eq (kw : Kwargs) (k v : List Char) (e : PyErr)
    (h : applyKV kw k v = .error e) : e = .valueError := by
  unfold applyKV at h
  repeat' split at h
  all_goals first
    | exact (Except.error.inj h).symm
    | exact Except.noConfusion h

/-- Every error `processLine` can raise is a `ValueError`. -/
theorem processLine_error_eq (kw : Kwargs) (l : List Char) (e : PyErr)
    (h : processLine kw l = .error e) : e = .valueError := by
  unfold processLine at h
  split at h
  · exact applyKV_error_eq _ _ _ _ h
  · exact (Except.error.inj h).symm

/-- A line whose colon-split does not have exactly two pieces makes the
tuple unpacking `k, v = line.split(":")` raise `ValueError`. -/
theorem processLine_of_bad_split (kw : Kwargs) (l : List Char)
    (h : (splitCh ':' l).length ≠ 2) : processLine kw l = .error .valueError := by
  unfold processLine
  split
  · next k v heq => exact absurd (show (splitCh ':' l).length = 2 by rw [heq]; rfl) h
  · rfl

/-- A file containing a line whose colon-split is not an exact pair makes
the whole parse fail with `ValueError`, whatever earlier lines did. -/
theorem configLines_of_bad_line (ls : List (List Char)) :
    ∀ (kw : Kwargs), (∃ l ∈ ls, (splitCh ':' l).length ≠ 2) →
      configLines kw ls = .error .valueError := by
  induction ls with
  | nil =>
    intro kw h
    obtain ⟨l, hl, _⟩ := h
    exact absurd hl (List.not_mem_nil l)
  | cons a rest ih =>
    intro kw h
    show (match processLine kw a with
          | Except.error e2 => (Except.error e2 : Except PyErr Kwargs)
          | Except.ok kw2 => configLines kw2 rest) = Except.error PyErr.valueError
    cases hp : processLine kw a with
    | error e2 =>
      rw [processLine_error_eq kw a e2 hp]
    | ok kwa =>
      obtain ⟨l, hl, hbad⟩ := h
      rcases List.mem_cons.mp hl with rfl | hl2
      · rw [processLine_of_bad_split kw l hbad] at hp
        exact Except.noConfusion hp
      · exact ih kwa ⟨l, hl2, hbad⟩

/-- A successful `applyKV` only touches the kwargs slot of the key it was
given: every other slot is preserved. -/
theorem applyKV_ok_preserve (kw kw2 : Kwargs) (k v : List Char)
    (h : applyKV kw k v = .ok kw2) :
    (k ≠ ("max_epochs").toList → kw2.max_epochs = kw.max_epochs)
  ∧ (k ≠ ("batch_size").toList → kw2.batch_size = kw.batch_size)
  ∧ (k ≠ ("learning_rate").toList → kw2.learning_rate = kw.learning_rate)
  ∧ (k ≠ ("betas").toList → kw2.betas = kw.betas)
  ∧ (k ≠ ("weight_decay").toList → kw2.weight_decay = kw.weight_decay)
  ∧ (k ≠ ("num_workers").toList → kw2.num_workers = kw.num_workers) := by
  unfold applyKV at h
  by_cases h1 : k = ("max_epochs").toList ∨ k = ("batch_size").toList ∨ k = ("num_workers").toList
  · rw [if_pos h1] at h
    cases hv : pyInt v with
    | none =>
      simp only [hv] at h
      exact Except.noConfusion h
    | some n =>
      simp only [hv] at h
      by_cases h2 : k = ("max_epochs").toList
      · rw [if_pos h2] at h
        have hk : kw2 = { kw with max_epochs := some n } := (Except.ok.inj h).symm
        subst hk
        exact ⟨fun hne => absurd h2 hne, fun _ => rfl, fun _ => rfl, fun _ => rfl,
          fun _ => rfl, fun _ => rfl⟩
      · rw [if_neg h2] at h
        by_cases h3 : k = ("batch_size").toList
        · rw [if_pos h3] at h
          have hk : kw2 = { kw with batch_size := some n } := (Except.ok.inj h).symm
          subst hk
          exact ⟨fun _ => rfl, fun hne => absurd h3 hne, fun _ => rfl, fun _ => rfl,
            fun _ => rfl, fun _ => rfl⟩
        · rw [if_neg h3] at h
          have hk : kw2 = { kw with num_workers := some n } := (Except.ok.inj h).symm
          subst hk
          have h4 : k = ("num_workers").toList := by
            rcases h1 with hh | hh | hh
            · exact absurd hh h2
            · exact absurd hh h3
            · exact hh
          exact ⟨fun _ => rfl, fun _ => rfl, fun _ => rfl, fun _ => rfl, fun _ => rfl,
            fun hne => absurd h4 hne⟩
  · rw [if_neg h1] at h
    by_cases h5 : k = ("learning_rate").toList ∨ k = ("weight_decay").toList
    · rw [if_pos h5] at h
      cases hv : pyFloat v with
      | none =>
        simp only [hv] at h
        exact Except.noConfusion h
      | some q =>
        simp only [hv] at h
        by_cases h6 : k = ("learning_rate").toList
        · rw [if_pos h6] at h
          have hk : kw2 = { kw with learning_rate := some q } := (Except.ok.inj h).symm
          subst hk
          exact ⟨fun _ => rfl, fun _ => rfl, fun hne => absurd h6 hne, fun _ => rfl,
            fun _ => rfl, fun _ => rfl⟩
        · rw [if_neg h6] at h
          have hk : kw2 = { kw with weight_decay := some q } := (Except.ok.inj h).symm
          subst hk
          have h7 : k = ("weight_decay").toList := by
            rcases h5 with hh | hh
            · exact absurd hh h6
            · exact hh
          exact ⟨fun _ => rfl, fun _ => rfl, fun _ => rfl, fun _ => rfl,
            fun hne => absurd h7 hne, fun _ => rfl⟩
    · rw [if_neg h5] at h
      by_cases h8 : k = ("betas").toList
      · rw [if_pos h8] at h
        cases hs : splitCommaSpace v with
        | nil =>
          simp only [hs] at h
          exact Except.noConfusion h
        | cons b1 bs =>
          cases bs with
          | nil =>
            simp only [hs] at h
            exact Except.noConfusion h
          | cons b2 bs2 =>
            cases bs2 with
            | cons b3 bs3 =>
              simp only [hs] at h
              exact Except.noConfusion h
            | nil =>
              simp only [hs] at h
              cases hf1 : pyFloat ((stripWs b1).drop 1) with
              | none =>
                simp only [hf1] at h
                exact Except.noConfusion h
              | some q1 =>
                simp only [hf1] at h
                cases hf2 : pyFloat ((stripWs b2).dropLast) with
                | none =>
                  simp only [hf2] at h
                  exact Except.noConfusion h
                | some q2 =>
                  simp only [hf2] at h
                  have hk : kw2 = { kw with betas := some (q1, q2) } := (Except.ok.inj h).symm
                  subst hk
                  exact ⟨fun _ => rfl, fun _ => rfl, fun _ => rfl, fun hne => absurd h8 hne,
                    fun _ => rfl, fun _ => rfl⟩
      · rw [if_neg h8] at h
        have hk : kw2 = kw := (Except.ok.inj h).symm
        subst hk
        exact ⟨fun _ => rfl, fun _ => rfl, fun _ => rfl, fun _ => rfl, fun _ => rfl,
          fun _ => rfl⟩

/-- A successful `processLine` only touches the slot of the line's stripped
key. -/
theorem processLine_ok_preserve (kw kw2 : Kwargs) (l : List Char)
    (h : processLine kw l = .ok kw2) :
    (lineKeyL l ≠ some (("max_epochs").toList) → kw2.max_epochs = kw.max_epochs)
  ∧ (lineKeyL l ≠ some (("batch_size").toList) → kw2.batch_size = kw.batch_size)
  ∧ (lineKeyL l ≠ some (("learning_rate").toList) → kw2.learning_rate = kw.learning_rate)
  ∧ (lineKeyL l ≠ some (("betas").toList) → kw2.betas = kw.betas)
  ∧ (lineKeyL l ≠ some (("weight_decay").toList) → kw2.weight_decay = kw.weight_decay)
  ∧ (lineKeyL l ≠ some (("num_workers").toList) → kw2.num_workers = kw.num_workers) := by
  unfold processLine at h
  cases hs : splitCh ':' l with
  | nil =>
    simp only [hs] at h
    exact Except.noConfusion h
  | cons k bs =>
    cases bs with
    | nil =>
      simp only [hs] at h
      exact Except.noConfusion h
    | cons v bs2 =>
      cases bs2 with
      | cons b3 bs3 =>
        simp only [hs] at h
        exact Except.noConfusion h
      | nil =>
        simp only [hs] at h
        have hkey : lineKeyL l = some (stripWs k) := by
          unfold lineKeyL
          rw [hs]
        have hp := applyKV_ok_preserve kw kw2 (stripWs k) (stripWs (stripNewlines v)) h
        have hne : ∀ (key : List Char), lineKeyL l ≠ some key → stripWs k ≠ key := by
          intro key hk heq
          exact hk (by rw [hkey, heq])
        exact ⟨fun hk => hp.1 (hne _ hk), fun hk => hp.2.1 (hne _ hk),
          fun hk => hp.2.2.1 (hne _ hk), fun hk => hp.2.2.2.1 (hne _ hk),
          fun hk => hp.2.2.2.2.1 (hne _ hk), fun hk => hp.2.2.2.2.2 (hne _ hk)⟩

/-- Over a whole successful parse, a kwargs slot whose key never appears as
a line key keeps its starting value. -/
theorem configLines_ok_preserve (ls : List (List Char)) :
    ∀ (kw kw2 : Kwargs), configLines kw ls = .ok kw2 →
      ((∀ l ∈ ls, lineKeyL l ≠ some (("max_epochs").toList)) → kw2.max_epochs = kw.max_epochs)
    ∧ ((∀ l ∈ ls, lineKeyL l ≠ some (("batch_size").toList)) → kw2.batch_size = kw.batch_size)
    ∧ ((∀ l ∈ ls, lineKeyL l ≠ some (("learning_rate").toList)) →
          kw2.learning_rate = kw.learning_rate)
    ∧ ((∀ l ∈ ls, lineKeyL l ≠ some (("betas").toList)) → kw2.betas = kw.betas)
    ∧ ((∀ l ∈ ls, lineKeyL l ≠ some (("weight_decay").toList)) →
          kw2.weight_decay = kw.weight_decay)
    ∧ ((∀ l ∈ ls, lineKeyL l ≠ some (("num_workers").toList)) →
          kw2.num_workers = kw.num_workers) := by
  induction ls with
  | nil =>
    intro kw kw2 h
    have hk : kw = kw2 := Except.ok.inj h
    subst hk
    exact ⟨fun _ => rfl, fun _ => rfl, fun _ => rfl, fun _ => rfl, fun _ => rfl, fun _ => rfl⟩
  | cons a rest ih =>
    intro kw kw2 h
    have hred : configLines kw (a :: rest)
        = (match processLine kw a with
           | Except.error e2 => (Except.error e2 : Except PyErr Kwargs)
           | Except.ok kwx => configLines kwx rest) := rfl
    rw [hred] at h
    cases hp : processLine kw a with
    | error e2 =>
      simp only [hp] at h
      exact Except.noConfusion h
    | ok kwa =>
      simp only [hp] at h
      have h1 := processLine_ok_preserve kw kwa a hp
      have h2 := ih kwa kw2 h
      have stepField : ∀ (key : List Char), (∀ l ∈ a :: rest, lineKeyL l ≠ some key) →
          (lineKeyL a ≠ some key) ∧ (∀ l ∈ rest, lineKeyL l ≠ some key) := by
        intro key habs
        exact ⟨habs a (List.mem_cons_self a rest),
          fun l hl => habs l (List.mem_cons_of_mem a hl)⟩
      refine ⟨fun habs => ?_, fun habs => ?_, fun habs => ?_, fun habs => ?_,
        fun habs => ?_, fun habs => ?_⟩
      · rw [h2.1 (stepField _ habs).2, h1.1 (stepField _ habs).1]
      · rw [h2.2.1 (stepField _ habs).2, h1.2.1 (stepField _ habs).1]
      · rw [h2.2.2.1 (stepField _ habs).2, h1.2.2.1 (stepField _ habs).1]
      · rw [h2.2.2.2.1 (stepField _ habs).2, h1.2.2.2.1 (stepField _ habs).1]
      · rw [h2.2.2.2.2.1 (stepField _ habs).2, h1.2.2.2.2.1 (stepField _ habs).1]
      · rw [h2.2.2.2.2.2 (stepField _ habs).2, h1.2.2.2.2.2 (stepField _ habs).1]

/-- The body of `extract_tag` past the guard never raises `ValueError`. -/
theorem extractTagBody_ne_valueError (s t : List Char) :
    extractTagBody s t ≠ .error .valueError := by
  unfold extractTagBody
  split
  · intro h
    exact PyErr.noConfusion (Except.error.inj h)
  · intro h
    exact PyErr.noConfusion (Except.error.inj h)
  · split
    · intro h
      exact PyErr.noConfusion (Except.error.inj h)
    · split
      · intro h
        exact Except.noConfusion h
      · intro h
        exact Except.noConfusion h

end DTChess

/-! # Claim theorems -/

namespace DTChess

/-- Claim C2: the claim states that after `create_model` returns, the
tokenizer's vocabulary has grown by one and the model's input
token-embedding table has the new vocabulary size as its row count. On the
code, `create_model` never returns: for every pretrained tokenizer and
every freshly loaded `GPT2LMHeadModel` (which has no `wte` attribute — its
input embedding lives at `transformer.wte`), the read
`model.wte.embedding_dim` raises `AttributeError`. Moreover the
`vocab_size` property the code adds one to does not count added special
tokens, so registering the pad token leaves it unchanged. -/
theorem c2_create_model_raises_attribute_error :
    (∀ (tok : GPT2Tokenizer) (gm : GPT2Model),
        create_model tok { transformer := gm } = .error .attributeError)
  ∧ (∀ (tok : GPT2Tokenizer),
        (add_special_tokens_pad tok ("[PAD]")).vocab_size = tok.vocab_size)
  ∧ (∀ (tok : GPT2Tokenizer), ("[PAD]") ∉ tok.added_tokens →
        tokenizerLen (add_special_tokens_pad tok ("[PAD]")) = tokenizerLen tok + 1) := by
  refine ⟨fun tok gm => rfl, fun tok => ?_, fun tok h => ?_⟩
  · unfold add_special_tokens_pad
    split
    · rfl
    · rfl
  · unfold add_special_tokens_pad tokenizerLen
    rw [if_neg h]
    simp
    omega

/-- Witness for C2's hypothesis-bearing conjunct at a concrete tokenizer. -/
theorem c2_create_model_raises_attribute_error_witness :
    create_model { vocab_size := 50257 } { transformer := { wte := ⟨50257, 1024⟩, wpe := ⟨1024, 1024⟩ } }
        = .error .attributeError
    ∧ tokenizerLen (add_special_tokens_pad { vocab_size := 50257 } ("[PAD]"))
        = tokenizerLen { vocab_size := 50257 } + 1 :=
  ⟨c2_create_model_raises_attribute_error.1 { vocab_size := 50257 }
      { wte := ⟨50257, 1024⟩, wpe := ⟨1024, 1024⟩ },
   c2_create_model_raises_attribute_error.2.2 { vocab_size := 50257 } (by simp)⟩

/-- Claim C4: the claim states that `count_parameters` returns the integer
sum of the element counts of the parameters requiring gradients. On the
code, the generator sums `p.numel` — the bound method object, the call
parentheses are missing — so for every module with at least one trainable
parameter the sum raises `TypeError`; only a module with no trainable
parameters yields the empty sum 0. -/
theorem c4_count_parameters_raises_type_error :
    (∀ (m : TorchModule), (∃ p ∈ m.params, p.requires_grad = true) →
        count_parameters m = .error .typeError)
  ∧ count_parameters { params := [] } = .ok (.intV 0) := by
  constructor
  · intro m hp
    obtain ⟨p, hmem, hg⟩ := hp
    have hmf : p ∈ m.params.filter (fun p => p.requires_grad) :=
      List.mem_filter.mpr ⟨hmem, hg⟩
    unfold count_parameters pySum
    cases hl : m.params.filter (fun p => p.requires_grad) with
    | nil => rw [hl] at hmf; exact absurd hmf (List.not_mem_nil p)
    | cons q rest =>
      show (List.map numelAttr (q :: rest)).foldl _ (Except.ok (PyVal.intV 0)) = _
      show (List.map numelAttr rest).foldl _ (pyAdd (.intV 0) (numelAttr q)) = _
      exact pySum_foldl_error (rest.map numelAttr) PyErr.typeError
  · rfl

/-- Witness for C4 at a module holding one trainable parameter. -/
theorem c4_count_parameters_raises_type_error_witness :
    count_parameters { params := [⟨4, true⟩] } = .error .typeError :=
  c4_count_parameters_raises_type_error.1 { params := [⟨4, true⟩] }
    ⟨⟨4, true⟩, by simp, rfl⟩

/-- Claim C9: the production pipeline (`preprocess_data`) tokenizes with a
fixed `max_length` of 1024, the lightweight variant (`prep`) with the
model's position-embedding count, and every example mapped through either
call site comes out at that call site's length; the two lengths can
differ (any model whose position table is not 1024 rows). -/
theorem c9_tokenize_call_site_lengths :
    (∀ (padId : Nat) (rawIds : List Nat),
        (tokenizeToIds preprocessTokenizeCall padId rawIds).length = 1024)
  ∧ (∀ (model : GPT2LMHeadModel) (padId : Nat) (rawIds : List Nat),
        (tokenizeToIds (prepTokenizeCall model) padId rawIds).length
          = model.transformer.wpe.num_embeddings)
  ∧ preprocessTokenizeCall.max_length = 1024
  ∧ (∀ (model : GPT2LMHeadModel),
        (prepTokenizeCall model).max_length = model.transformer.wpe.num_embeddings)
  ∧ (∃ (model : GPT2LMHeadModel),
        (prepTokenizeCall model).max_length ≠ preprocessTokenizeCall.max_length) := by
  refine ⟨fun padId rawIds => ?_, fun model padId rawIds => ?_, rfl, fun model => rfl, ?_⟩
  · simp [tokenizeToIds, preprocessTokenizeCall]
    omega
  · simp [tokenizeToIds, prepTokenizeCall]
    omega
  · exact ⟨{ transformer := { wte := ⟨1, 1⟩, wpe := ⟨512, 1⟩ } }, by decide⟩

/-- Claim C1: the claim states that with `max_epochs = 1`, `batch_size = 2`,
`checkpoint_every_n = 1` and a 4-example dataset (two batches), the loop
runs the forward/backward/step sequence exactly twice and writes at least
one checkpoint. On the code, `train` aborts before its first batch for
every `TrainingConfig` whatsoever: `wandb.watch(model,
log_freq=config.log_every_n)` reads the attribute `log_every_n`, which the
dataclass does not define (nor `num_epochs` nor `checkpoint_every_n`), so
`AttributeError` is raised after `wandb.init` — zero compute steps, zero
checkpoints. The second conjunct shows the claim is what the loop body
would do were those attributes present with the claimed values: two
forward/backward/step rounds and exactly one checkpoint write. -/
theorem c1_train_aborts_before_first_batch :
    (∀ (cfg : TrainingConfig) (nBatches : Nat) (runId : String),
        train cfg nBatches runId = ([Effect.initRun], .error .attributeError))
  ∧ ((trainLoopEffects 1 1 ("ckpt") ("run1") 2).count Effect.forward = 2
      ∧ (trainLoopEffects 1 1 ("ckpt") ("run1") 2).count Effect.backward = 2
      ∧ (trainLoopEffects 1 1 ("ckpt") ("run1") 2).count Effect.optimStep = 2
      ∧ ((trainLoopEffects 1 1 ("ckpt") ("run1") 2).filterMap writePathOf).length = 1) := by
  refine ⟨fun cfg nBatches runId => rfl, by decide, by decide, by decide, by decide⟩

/-- Counterexample to claim C3: the checkpoint path of train.py line 41 is
`{ckpt_path}/gpt2-{run_id}.pt`, with no step count. Running one epoch over
three batches with checkpoint interval 1 produces checkpoint writes at
steps 1 and 2 — to the same file, so the files of the two checkpoint
intervals are not distinct and the second write mutates the first. -/
theorem c3_checkpoint_paths_not_distinct :
    ((trainLoopEffects 1 1 ("ckpt") ("abc") 3).filterMap writePathOf
        = [("ckpt/gpt2-abc.pt"), ("ckpt/gpt2-abc.pt")])
  ∧ ¬ List.Nodup ((trainLoopEffects 1 1 ("ckpt") ("abc") 3).filterMap writePathOf) := by
  exact ⟨by decide, by decide⟩

/-- Claim C3 as amended: every filesystem effect of the training loop is a
write to the single per-run path `{ckpt_path}/gpt2-{run_id}.pt` (run
identifier only, no step count, so successive checkpoint intervals
overwrite the same file), and the loop never deletes any file. -/
theorem c3_checkpoints_one_path_per_run_never_deleted :
    ∀ (ne ck : Nat) (cp rid : String) (nb : Nat) (e : Effect),
      e ∈ trainLoopEffects ne ck cp rid nb →
      (∀ p, e ≠ Effect.fsDelete p)
        ∧ (∀ p, e = Effect.fsWrite p → p = ckptFilePath cp rid) := by
  intro ne ck cp rid nb e he
  unfold trainLoopEffects at he
  rw [List.mem_append] at he
  rcases he with he | he
  · rcases List.mem_cons.mp he with rfl | he
    · exact ⟨fun p h => Effect.noConfusion h, fun p h => Effect.noConfusion h⟩
    · rcases List.mem_cons.mp he with rfl | he
      · exact ⟨fun p h => Effect.noConfusion h, fun p h => Effect.noConfusion h⟩
      · exact absurd he (List.not_mem_nil _)
  · rw [List.mem_flatMap] at he
    obtain ⟨a, _, he⟩ := he
    unfold epochEffects at he
    rw [List.mem_flatMap] at he
    obtain ⟨i, _, he⟩ := he
    unfold batchEffects at he
    rw [List.mem_append] at he
    rcases he with he | he
    · simp only [List.mem_cons, List.not_mem_nil, or_false] at he
      rcases he with rfl | rfl | rfl | rfl <;>
        exact ⟨fun p h => Effect.noConfusion h, fun p h => Effect.noConfusion h⟩
    · split at he
      · simp only [List.mem_cons, List.not_mem_nil, or_false] at he
        rcases he with rfl | rfl
        · refine ⟨fun p h => Effect.noConfusion h, fun p h => ?_⟩
          injection h with h2
          exact h2.symm
        · exact ⟨fun p h => Effect.noConfusion h, fun p h => Effect.noConfusion h⟩
      · exact absurd he (List.not_mem_nil _)

/-- Witness for the amended C3 at the checkpoint write emitted by a
concrete run. -/
theorem c3_checkpoints_one_path_per_run_never_deleted_witness :
    Effect.fsWrite (ckptFilePath ("ckpt") ("abc")) ≠ Effect.fsDelete ("ckpt/gpt2-abc.pt") :=
  (c3_checkpoints_one_path_per_run_never_deleted 1 1 ("ckpt") ("abc") 2
      (Effect.fsWrite (ckptFilePath ("ckpt") ("abc"))) (by decide)).1 ("ckpt/gpt2-abc.pt")

/-- Claim C6: a config file containing a line with no `:` separator makes
`config_from_file` fail with a parsing error (Python's `ValueError` from the
tuple unpacking `k, v = line.split(":")`) instead of returning a
`TrainingConfig`. -/
theorem c6_line_without_colon_fails :
    ∀ (lines : List String) (l : String), l ∈ lines → (':') ∉ l.toList →
      config_from_file lines = .error .valueError := by
  intro lines l hmem hnc
  have hbad : (splitCh ':' l.toList).length ≠ 2 := by
    rw [splitCh_of_not_mem _ _ hnc]
    simp
  have hrun := configLines_of_bad_line (lines.map String.toList) {}
      ⟨l.toList, List.mem_map.mpr ⟨l, hmem, rfl⟩, hbad⟩
  unfold config_from_file
  rw [hrun]

/-- Witness for C6 at a one-line file whose line lacks a colon. -/
theorem c6_line_without_colon_fails_witness :
    config_from_file [("max_epochs 3")] = .error .valueError :=
  c6_line_without_colon_fails [("max_epochs 3")] ("max_epochs 3")
    (List.mem_singleton.mpr rfl) (by decide)

/-- Claim C10 (implicit): `config_from_file` fails on every line that does
not contain exactly one `:` — not only lines with no separator: a blank
line (zero colons) and a line whose value itself contains a colon (two or
more colons, e.g. a checkpoint path) also abort parsing with the same
`ValueError`, so no config value may contain a colon. -/
theorem c10_line_without_exactly_one_colon_fails :
    (∀ (lines : List String) (l : String), l ∈ lines → l.toList.count (':') ≠ 1 →
        config_from_file lines = .error .valueError)
  ∧ config_from_file [("")] = .error .valueError
  ∧ config_from_file [("max_epochs: 1"), ("ckpt_path: /data:run1")] = .error .valueError := by
  refine ⟨?_, rfl, rfl⟩
  intro lines l hmem hcnt
  have hbad : (splitCh ':' l.toList).length ≠ 2 := by
    rw [splitCh_length]
    omega
  have hrun := configLines_of_bad_line (lines.map String.toList) {}
      ⟨l.toList, List.mem_map.mpr ⟨l, hmem, rfl⟩, hbad⟩
  unfold config_from_file
  rw [hrun]

/-- Witness for C10 at a file whose second line holds a colon-bearing
value. -/
theorem c10_line_without_exactly_one_colon_fails_witness :
    config_from_file [("batch_size: 8"), ("ckpt_path: /tmp:x")] = .error .valueError :=
  c10_line_without_exactly_one_colon_fails.1 [("batch_size: 8"), ("ckpt_path: /tmp:x")]
    ("ckpt_path: /tmp:x") (by simp) (by decide)

/-- Claim C7: a parsed config exposes the dataclass default for every
recognized field whose key is absent from the file: `max_epochs = 10`,
`batch_size = 64`, `learning_rate = 1e-4`, `betas = (0.9, 0.95)`,
`weight_decay = 0.1`, checkpoint path unset (always — the parser never
fills it), `num_workers = 0`. -/
theorem c7_absent_fields_take_defaults :
    ∀ (lines : List String) (cfg : TrainingConfig), config_from_file lines = .ok cfg →
      ((∀ l ∈ lines, lineKey l ≠ some (("max_epochs").toList)) → cfg.max_epochs = 10)
    ∧ ((∀ l ∈ lines, lineKey l ≠ some (("batch_size").toList)) → cfg.batch_size = 64)
    ∧ ((∀ l ∈ lines, lineKey l ≠ some (("learning_rate").toList)) →
          cfg.learning_rate = 1 / 10000)
    ∧ ((∀ l ∈ lines, lineKey l ≠ some (("betas").toList)) → cfg.betas = (9 / 10, 19 / 20))
    ∧ ((∀ l ∈ lines, lineKey l ≠ some (("weight_decay").toList)) → cfg.weight_decay = 1 / 10)
    ∧ cfg.ckpt_path = none
    ∧ ((∀ l ∈ lines, lineKey l ≠ some (("num_workers").toList)) → cfg.num_workers = 0) := by
  intro lines cfg h
  unfold config_from_file at h
  cases hc : configLines {} (lines.map String.toList) with
  | error e =>
    simp only [hc] at h
    exact Except.noConfusion h
  | ok kw =>
    simp only [hc] at h
    have hcfg : cfg = buildConfig kw := (Except.ok.inj h).symm
    subst hcfg
    have hp := configLines_ok_preserve (lines.map String.toList) {} kw hc
    have toL : ∀ (key : List Char), (∀ l ∈ lines, lineKey l ≠ some key) →
        (∀ l2 ∈ lines.map String.toList, lineKeyL l2 ≠ some key) := by
      intro key habs l2 hl2
      obtain ⟨l0, hl0, rfl⟩ := List.mem_map.mp hl2
      exact habs l0 hl0
    refine ⟨fun habs => ?_, fun habs => ?_, fun habs => ?_, fun habs => ?_,
      fun habs => ?_, rfl, fun habs => ?_⟩
    · show kw.max_epochs.getD 10 = 10
      rw [hp.1 (toL _ habs)]
      rfl
    · show kw.batch_size.getD 64 = 64
      rw [hp.2.1 (toL _ habs)]
      rfl
    · show kw.learning_rate.getD (1 / 10000) = 1 / 10000
      rw [hp.2.2.1 (toL _ habs)]
      rfl
    · show kw.betas.getD (9 / 10, 19 / 20) = (9 / 10, 19 / 20)
      rw [hp.2.2.2.1 (toL _ habs)]
      rfl
    · show kw.weight_decay.getD (1 / 10) = 1 / 10
      rw [hp.2.2.2.2.1 (toL _ habs)]
      rfl
    · show kw.num_workers.getD 0 = 0
      rw [hp.2.2.2.2.2 (toL _ habs)]
      rfl

/-- Claim C5: `config_from_file` parses each recognized field per the §4.1
rules — `max_epochs`, `batch_size`, `num_workers` by `int()`,
`learning_rate`, `weight_decay` by `float()`, and `betas` by splitting the
value on comma-space, stripping the enclosing bracket character from each
side (the first character of the left piece, the last of the right) and
parsing each piece as a float; in particular the line
`betas: (0.9, 0.95)` yields the pair `(0.9, 0.95)`, and a full six-field
file parses to the corresponding config. -/
theorem c5_recognized_field_parse_rules :
    (∀ (kw : Kwargs) (v : List Char) (n : Int), pyInt v = some n →
        applyKV kw (("max_epochs").toList) v = .ok { kw with max_epochs := some n })
  ∧ (∀ (kw : Kwargs) (v : List Char) (n : Int), pyInt v = some n →
        applyKV kw (("batch_size").toList) v = .ok { kw with batch_size := some n })
  ∧ (∀ (kw : Kwargs) (v : List Char) (n : Int), pyInt v = some n →
        applyKV kw (("num_workers").toList) v = .ok { kw with num_workers := some n })
  ∧ (∀ (kw : Kwargs) (v : List Char) (q : ℚ), pyFloat v = some q →
        applyKV kw (("learning_rate").toList) v = .ok { kw with learning_rate := some q })
  ∧ (∀ (kw : Kwargs) (v : List Char) (q : ℚ), pyFloat v = some q →
        applyKV kw (("weight_decay").toList) v = .ok { kw with weight_decay := some q })
  ∧ (∀ (kw : Kwargs) (v b1 b2 : List Char) (q1 q2 : ℚ),
        splitCommaSpace v = [b1, b2] →
        pyFloat ((stripWs b1).drop 1) = some q1 →
        pyFloat ((stripWs b2).dropLast) = some q2 →
        applyKV kw (("betas").toList) v = .ok { kw with betas := some (q1, q2) })
  ∧ (∀ (kw : Kwargs),
        applyKV kw (("betas").toList) (("(0.9, 0.95)").toList)
          = .ok { kw with betas := some (9 / 10, 19 / 20) })
  ∧ config_from_file
        [("max_epochs: 1"), ("batch_size: 2"), ("learning_rate: 0.0003"),
         ("weight_decay: 0.05"), ("betas: (0.9, 0.95)"), ("num_workers: 4")]
      = .ok { max_epochs := 1, batch_size := 2, learning_rate := 3 / 10000,
              betas := (9 / 10, 19 / 20), weight_decay := 1 / 20, ckpt_path := none,
              num_workers := 4 } := by
  have hbetasU : ∀ (kw : Kwargs) (v b1 b2 : List Char) (q1 q2 : ℚ),
      splitCommaSpace v = [b1, b2] →
      pyFloat ((stripWs b1).drop 1) = some q1 →
      pyFloat ((stripWs b2).dropLast) = some q2 →
      applyKV kw (("betas").toList) v = .ok { kw with betas := some (q1, q2) } := by
    intro kw v b1 b2 q1 q2 hs h1 h2
    rw [show applyKV kw (("betas").toList) v
        = (match splitCommaSpace v with
           | [c1, c2] =>
             (match pyFloat ((stripWs c1).drop 1), pyFloat ((stripWs c2).dropLast) with
              | some r1, some r2 => Except.ok { kw with betas := some (r1, r2) }
              | _, _ => (Except.error PyErr.valueError : Except PyErr Kwargs))
           | _ => (Except.error PyErr.valueError : Except PyErr Kwargs)) from rfl,
      hs]
    show (match pyFloat ((stripWs b1).drop 1), pyFloat ((stripWs b2).dropLast) with
          | some r1, some r2 => Except.ok { kw with betas := some (r1, r2) }
          | _, _ => (Except.error PyErr.valueError : Except PyErr Kwargs))
        = Except.ok { kw with betas := some (q1, q2) }
    rw [h1, h2]
  have h09 : pyFloat ((stripWs (("(0.9").toList)).drop 1) = some ((9 : ℚ) / 10) := by
    rw [show pyFloat ((stripWs (("(0.9").toList)).drop 1)
        = some (decScale 9 (-(1 : Int))) from rfl]
    norm_num [decScale]
  have h095 : pyFloat ((stripWs (("0.95)").toList)).dropLast) = some ((19 : ℚ) / 20) := by
    rw [show pyFloat ((stripWs (("0.95)").toList)).dropLast)
        = some (decScale 95 (-(2 : Int))) from rfl]
    norm_num [decScale]
  refine ⟨?_, ?_, ?_, ?_, ?_, hbetasU, ?_, ?_⟩
  · intro kw v n h
    rw [show applyKV kw (("max_epochs").toList) v
        = (match pyInt v with
           | none => (Except.error PyErr.valueError : Except PyErr Kwargs)
           | some n2 => Except.ok { kw with max_epochs := some n2 }) from rfl,
      h]
  · intro kw v n h
    rw [show applyKV kw (("batch_size").toList) v
        = (match pyInt v with
           | none => (Except.error PyErr.valueError : Except PyErr Kwargs)
           | some n2 => Except.ok { kw with batch_size := some n2 }) from rfl,
      h]
  · intro kw v n h
    rw [show applyKV kw (("num_workers").toList) v
        = (match pyInt v with
           | none => (Except.error PyErr.valueError : Except PyErr Kwargs)
           | some n2 => Except.ok { kw with num_workers := some n2 }) from rfl,
      h]
  · intro kw v q h
    rw [show applyKV kw (("learning_rate").toList) v
        = (match pyFloat v with
           | none => (Except.error PyErr.valueError : Except PyErr Kwargs)
           | some q2 => Except.ok { kw with learning_rate := some q2 }) from rfl,
      h]
  · intro kw v q h
    rw [show applyKV kw (("weight_decay").toList) v
        = (match pyFloat v with
           | none => (Except.error PyErr.valueError : Except PyErr Kwargs)
           | some q2 => Except.ok { kw with weight_decay := some q2 }) from rfl,
      h]
  · intro kw
    exact hbetasU kw _ _ _ _ _ rfl h09 h095
  · rw [show config_from_file
          [("max_epochs: 1"), ("batch_size: 2"), ("learning_rate: 0.0003"),
           ("weight_decay: 0.05"), ("betas: (0.9, 0.95)"), ("num_workers: 4")]
        = Except.ok { max_epochs := 1, batch_size := 2,
                      learning_rate := decScale 3 (-(4 : Int)),
                      betas := (decScale 9 (-(1 : Int)), decScale 95 (-(2 : Int))),
                      weight_decay := decScale 5 (-(2 : Int)), ckpt_path := none,
                      num_workers := 4 } from rfl]
    simp only [Except.ok.injEq, TrainingConfig.mk.injEq, Prod.mk.injEq]
    norm_num [decScale]

/-- Witness for C5 at concrete lines for each recognized field. -/
theorem c5_recognized_field_parse_rules_witness :
    applyKV {} (("max_epochs").toList) (("7").toList) = .ok { max_epochs := some 7 }
  ∧ applyKV {} (("batch_size").toList) (("2").toList) = .ok { batch_size := some 2 }
  ∧ applyKV {} (("num_workers").toList) (("3").toList) = .ok { num_workers := some 3 }
  ∧ applyKV {} (("learning_rate").toList) (("0.5").toList)
      = .ok { learning_rate := some (decScale 5 (-(1 : Int))) }
  ∧ applyKV {} (("weight_decay").toList) (("0.25").toList)
      = .ok { weight_decay := some (decScale 25 (-(2 : Int))) }
  ∧ applyKV {} (("betas").toList) (("(0.9, 0.95)").toList)
      = .ok { betas := some (decScale 9 (-(1 : Int)), decScale 95 (-(2 : Int))) } :=
  ⟨c5_recognized_field_parse_rules.1 {} (("7").toList) 7 rfl,
   c5_recognized_field_parse_rules.2.1 {} (("2").toList) 2 rfl,
   c5_recognized_field_parse_rules.2.2.1 {} (("3").toList) 3 rfl,
   c5_recognized_field_parse_rules.2.2.2.1 {} (("0.5").toList) (decScale 5 (-(1 : Int))) rfl,
   c5_recognized_field_parse_rules.2.2.2.2.1 {} (("0.25").toList)
     (decScale 25 (-(2 : Int))) rfl,
   c5_recognized_field_parse_rules.2.2.2.2.2.1 {} (("(0.9, 0.95)").toList)
     (("(0.9").toList) (("0.95)").toList) (decScale 9 (-(1 : Int)))
     (decScale 95 (-(2 : Int))) rfl rfl rfl⟩

/-- Witness for C7 at the empty file: all defaults hold. -/
theorem c7_absent_fields_take_defaults_witness :
    (buildConfig {}).max_epochs = 10 ∧ (buildConfig {}).batch_size = 64
  ∧ (buildConfig {}).learning_rate = 1 / 10000
  ∧ (buildConfig {}).betas = (9 / 10, 19 / 20)
  ∧ (buildConfig {}).weight_decay = 1 / 10
  ∧ (buildConfig {}).ckpt_path = none
  ∧ (buildConfig {}).num_workers = 0 := by
  have h := c7_absent_fields_take_defaults [] (buildConfig {}) rfl
  have hnil : ∀ (key : List Char), ∀ l ∈ ([] : List String), lineKey l ≠ some key :=
    fun key l hl => absurd hl (List.not_mem_nil l)
  exact ⟨h.1 (hnil _), h.2.1 (hnil _), h.2.2.1 (hnil _), h.2.2.2.1 (hnil _),
    h.2.2.2.2.1 (hnil _), h.2.2.2.2.2.1, h.2.2.2.2.2.2 (hnil _)⟩

/-- Counterexample to claim C8: the claim says `extract_tag` returns the
first matching child's text when the tag is present and fails with
`ValueError` exactly when the tag is absent — so every call would either
return a result or raise `ValueError`. At the concrete input
`extract_tag("<move>e4</move>", "e4")` neither happens: `"e4"` passes the
substring guard but is no child element, so `find` returns `None` and
`.text` on `None` raises `AttributeError`. -/
theorem c8_extract_tag_counterexample :
    ¬ (∀ (s t : String),
        (∃ r, extract_tag s t = .ok r) ∨ extract_tag s t = .error .valueError) := by
  intro hclaim
  have he : extract_tag ("<move>e4</move>") ("e4") = .error .attributeError := rfl
  rcases hclaim ("<move>e4</move>") ("e4") with ⟨r, hr⟩ | hv
  · rw [he] at hr
    exact Except.noConfusion hr
  · rw [he] at hv
    exact PyErr.noConfusion (Except.error.inj hv)

/-- Claim C8 as amended: `extract_tag` fails with `ValueError` exactly when
`tag_name` is not a substring of the input; when it is a substring, the
call returns the first matching direct child element's text if such a child
exists (`extract_tag("<move>e4</move>", "move") = "e4"`,
`extract_tag("<move>e4</move>", "score")` raises `ValueError`), and
otherwise fails with a different error — `AttributeError` when no matching
child element exists despite the substring match. -/
theorem c8_extract_tag_valueerror_iff_not_substring :
    (∀ (s t : String),
        extract_tag s t = .error .valueError ↔ isSubstrOf t.toList s.toList = false)
  ∧ extract_tag ("<move>e4</move>") ("move") = .ok (some ("e4"))
  ∧ extract_tag ("<move>e4</move>") ("score") = .error .valueError
  ∧ extract_tag ("<move>e4</move>") ("e4") = .error .attributeError := by
  refine ⟨fun s t => ?_, rfl, rfl, rfl⟩
  constructor
  · intro h
    by_cases hb : isSubstrOf t.toList s.toList = false
    · exact hb
    · exfalso
      unfold extract_tag at h
      rw [if_neg hb] at h
      exact extractTagBody_ne_valueError _ _ h
  · intro h
    unfold extract_tag
    rw [if_pos h]

end DTChess
